import Mathlib

/-!
Verification development for the `upython` package-manager installer
(`install.py` and the `upm` command-line front end, `main.py`).

The Python source is embedded shallowly: pure helpers become Lean
functions, stateful procedures become functions that additionally return
an explicit trace of the filesystem operations they perform, and code
paths that raise become values of an `Except` type.  Python's dynamic
name resolution at module scope is modelled explicitly where it decides
behaviour (an attribute lookup on an unbound global name raises
`NameError`).
-/

/-! ## Shell-glob matching (Python `fnmatch.fnmatch` on a POSIX system)

`fnmatch.fnmatch(name, pat)` translates `pat` with `*` (any sequence,
including path separators), `?` (any single character) and `[...]`
character classes (`[!...]` negated, a `]` right after the opening
bracket is a literal member, an unterminated `[` is a literal `[`),
and matches the whole of `name` against it.  `os.path.normcase` is the
identity on POSIX, so no case folding is modelled. -/

/-- One token of a translated glob pattern. -/
inductive GlobTok where
  | lit (c : Char)
  | star
  | anyChar
  | cls (negated : Bool) (members : List Char)
  deriving Repr, DecidableEq

/-- Splits a character-class body at its terminating `]`.
Returns the members before the `]` and the remainder of the pattern,
or `none` when the class is unterminated. -/
def splitClass : List Char → Option (List Char × List Char)
  | [] => none
  | ']' :: rest => some ([], rest)
  | c :: rest =>
    match splitClass rest with
    | some (cls, r) => some (c :: cls, r)
    | none => none

/-- Reads a character class after the opening `[`: an optional leading
`!` negates the class, a `]` immediately after that is a literal
member, and the class runs to the next `]`.  Returns `none` when no
closing `]` exists (the `[` is then a literal character). -/
def extractClass (ps : List Char) : Option (Bool × List Char × List Char) :=
  match ps with
  | '!' :: ']' :: t =>
    match splitClass t with
    | some (cls, r) => some (true, ']' :: cls, r)
    | none => none
  | '!' :: t =>
    match splitClass t with
    | some (cls, r) => some (true, cls, r)
    | none => none
  | ']' :: t =>
    match splitClass t with
    | some (cls, r) => some (false, ']' :: cls, r)
    | none => none
  | t =>
    match splitClass t with
    | some (cls, r) => some (false, cls, r)
    | none => none

/-- Translates a glob pattern into tokens.  The `fuel` argument only
drives structural recursion; `extractClass` consumes at most as many
characters as it is given, so `fuel = length` (as supplied by
`tokenizeGlob`) never runs out. -/
def tokenizeGlobAux : Nat → List Char → List GlobTok
  | 0, _ => []
  | _ + 1, [] => []
  | fuel + 1, '*' :: ps => .star :: tokenizeGlobAux fuel ps
  | fuel + 1, '?' :: ps => .anyChar :: tokenizeGlobAux fuel ps
  | fuel + 1, '[' :: ps =>
    match extractClass ps with
    | some (neg, cls, rest) => .cls neg cls :: tokenizeGlobAux fuel rest
    | none => .lit '[' :: tokenizeGlobAux fuel ps
  | fuel + 1, c :: ps => .lit c :: tokenizeGlobAux fuel ps

/-- Translates a glob pattern into tokens. -/
def tokenizeGlob (l : List Char) : List GlobTok :=
  tokenizeGlobAux l.length l

/-- Membership in a character class, with `a-b` ranges (a trailing or
leading `-` is a literal member, as in Python's translation). -/
def classMatches : List Char → Char → Bool
  | a :: '-' :: b :: rest, c =>
    (decide (a ≤ c) && decide (c ≤ b)) || classMatches rest c
  | a :: rest, c => (a == c) || classMatches rest c
  | [], _ => false

/-- Matches a token list against a character list; `star` may absorb
any number of characters (path separators included), expressed as: the
rest of the tokens match some suffix of the string. -/
def matchToks : List GlobTok → List Char → Bool
  | [] => fun s => s.isEmpty
  | .star :: ts => fun s => s.tails.any (fun suf => matchToks ts suf)
  | .anyChar :: ts => fun s =>
    match s with
    | [] => false
    | _ :: cs => matchToks ts cs
  | .lit a :: ts => fun s =>
    match s with
    | [] => false
    | c :: cs => (a == c) && matchToks ts cs
  | .cls neg cls :: ts => fun s =>
    match s with
    | [] => false
    | c :: cs => (classMatches cls c != neg) && matchToks ts cs

/-- Python's `fnmatch.fnmatch(filename, pattern)` on POSIX. -/
def fnmatch (filename pattern : String) : Bool :=
  matchToks (tokenizeGlob pattern.data) filename.data

/-! ## `install.py` module-level helpers -/

/-- The constant `PPYM_INSTALLED_FILES` of `install.py`. -/
def PPYM_INSTALLED_FILES : String := ".ppym-installed-files"

/-- The list `default_exclude_patterns` of `install.py`. -/
def default_exclude_patterns : List String :=
  [".DS_Store", ".svn/*", ".git", ".git/*", "ppy_modules/*",
   "*.pyc", "*.pyo", "dist/*"]

/-- The helper `_match_any_pattern(filename, patterns)`. -/
def _match_any_pattern (filename : String) (patterns : List String) : Bool :=
  patterns.any (fun x => fnmatch filename x)

/-- The helper `_check_include_file(filename, include_patterns, exclude_patterns)`. -/
def _check_include_file (filename : String)
    (include_patterns exclude_patterns : List String) : Bool :=
  if _match_any_pattern filename exclude_patterns then false
  else if include_patterns.isEmpty then true
  else _match_any_pattern filename include_patterns

/-- Models `os.path.join` for the uses in `install.py` (all right-hand
components are relative paths). -/
def joinPath (a b : String) : String := a ++ "/" ++ b

/-- Models `os.path.dirname`. -/
def dirname (p : String) : String :=
  String.intercalate "/" ((p.split (fun c => c = '/')).dropLast)

/-! ## Package manifests and `walk_package_files` -/

/-- The fields of a `PackageManifest` that `install.py` reads.
`directory` is the package root the manifest was parsed from;
`dist_include_files` is `manifest.dist.get('include_files', [])`. -/
structure PackageManifest where
  name : String
  version : String
  dependencies : List (String × String)
  dist_include_files : List String
  script : List (String × String)
  bin : List (String × String)
  postinstall : Option String
  directory : String
  deriving Repr, DecidableEq

/-- The derived `manifest.identifier` (`name@version`). -/
def PackageManifest.identifier (m : PackageManifest) : String :=
  m.name ++ "@" ++ m.version

/-- The generator `walk_package_files(manifest)`, with `files` standing for the
relative paths of the regular files that `os.walk` enumerates under
`manifest.directory` (in walk order).  Yields `(abspath, relpath)`
pairs: a file is yielded when its relative path is `package.json`, or
when it passes `_check_include_file` with the include patterns set to
`manifest.dist.get('include_files', [])` and the exclude patterns set
to that same list concatenated with `default_exclude_patterns`. -/
def walk_package_files (manifest : PackageManifest) (files : List String) :
    List (String × String) :=
  let inpat := manifest.dist_include_files
  let expat := manifest.dist_include_files ++ default_exclude_patterns
  (files.filter (fun rel =>
      rel == "package.json" || _check_include_file rel inpat expat)).map
    (fun rel => (joinPath manifest.directory rel, rel))

/-! ## Python name resolution at `install.py` module scope

`install.py` binds the download utility module to the name `_download`
(`_download = require('./utils/download')`), yet the body of
`install_from_registry` refers to it as `download`.  Evaluating an
unbound global name raises `NameError`, so module-scope name binding is
part of the behaviour the claims are about and is modelled explicitly. -/

/-- An exception escaping an `install.py` operation. -/
inductive PyError where
  | nameError (name : String)
  | assertionError
  deriving Repr, DecidableEq

/-- Every name bound at module scope in `install.py`: the `import`ed
modules, the `from fnmatch import fnmatch` binding, the `require`
assignments, the module constants, and the module-level `def`/`class`
statements. -/
def installModuleBindings : List String :=
  ["__all__", "os", "pip", "shlex", "shutil", "tarfile", "tempfile",
   "traceback", "fnmatch", "_registry", "_config", "_download", "_script",
   "refstring", "parse_manifest", "PackageManifest",
   "InvalidPackageManifest", "PPYM_INSTALLED_FILES",
   "default_exclude_patterns", "_makedirs", "_match_any_pattern",
   "_check_include_file", "PackageNotFound", "walk_package_files",
   "Installer", "InstallError"]

/-- Resolution of a global name referenced inside a method of
`install.py` (none of the names the claims involve is a Python
builtin): a module-scope binding resolves, any other name raises
`NameError`. -/
def evalGlobal (n : String) : Except PyError Unit :=
  if installModuleBindings.contains n then .ok () else .error (.nameError n)

/-! ## `Installer.install_from_registry` -/

/-- The registry's answer to `find_package(package_name, selector)`. -/
structure RegistryInfo where
  name : String
  version : String
  deriving Repr, DecidableEq

/-- The observable outcome of a call to `install_from_registry`:
the returned value or escaped exception, whether the registry was
queried (`self.reg.find_package` and everything after it), and whether
the unsatisfied-dependency warning was printed. -/
structure RegistryOutcome where
  result : Except PyError Bool
  registryQueried : Bool
  warned : Bool

/-- The part of `install_from_registry` from the `self.reg.find_package`
query onward: asserts that the returned name equals the query name,
obtains the download response, and then evaluates
`download.get_response_filename(response)` — whose base `download` is a
free global name.  `rest` abstracts the remainder of the function
(streaming into the temporary file and `install_from_archive`), which
is reached only if that name resolves. -/
def registryDownloadPhase (info : RegistryInfo) (package_name : String)
    (warned : Bool) (rest : Except PyError Bool) : RegistryOutcome :=
  { result :=
      if info.name ≠ package_name then .error .assertionError
      else
        match evalGlobal "download" with
        | .error e => .error e
        | .ok _ => rest
    registryQueried := true
    warned := warned }

/-- The method `Installer.install_from_registry(package_name, selector)`.
`found` is the result of the `self.find_package(package_name)` probe
(`none` when it raised `PackageNotFound`), `selOk` is
`selector(·)` applied to a version string, and `info` is what
`self.reg.find_package` would return.  When the package is found, a
selector mismatch prints a warning; when additionally `upgrade` is off
the method reports the package as already installed and returns `True`
without reaching the registry. -/
def install_from_registry (upgrade : Bool) (found : Option PackageManifest)
    (selOk : String → Bool) (info : RegistryInfo) (package_name : String)
    (rest : Except PyError Bool) : RegistryOutcome :=
  match found with
  | some package =>
    let warned := !selOk package.version
    if !upgrade then
      { result := .ok true, registryQueried := false, warned := warned }
    else registryDownloadPhase info package_name warned rest
  | none => registryDownloadPhase info package_name false rest

/-! ## `Installer.uninstall_directory` -/

/-- The result of `require.session.get_manifest` on a directory's
`package.json`: a parsed manifest or an `InvalidPackageManifest`. -/
inductive ManifestParse where
  | ok (m : PackageManifest)
  | invalid (reason : String)
  deriving Repr, DecidableEq

/-- One filesystem-changing operation performed by the installer. -/
inductive FsOp where
  | uninstallDir (dir : String)
  | makedirs (dir : String)
  | copyfile (src dst : String)
  | writeFile (path : String) (lines : List String)
  | makeCommandScript (name : String)
  | makePpyRunner (name target : String)
  | runScript (path : String)
  | removeFile (path : String)
  | rmtree (path : String)
  deriving Repr, DecidableEq

/-- Whether an operation deletes existing files. -/
def FsOp.isDestructive : FsOp → Bool
  | .uninstallDir _ => true
  | .removeFile _ => true
  | .rmtree _ => true
  | _ => false

/-- The method `Installer.uninstall_directory(directory)`.  `getManifest`
is `require.session.get_manifest` on `<directory>/package.json`;
`ledger` is the line list of the `.ppym-installed-files` file when that
file exists.  On `InvalidPackageManifest` the handler formats its
message as `'...'.format(directory, ext)` — but the caught exception is
bound as `exc` and no `ext` exists in any enclosing scope, so
evaluating the argument raises `NameError` before anything is printed
or returned.  Otherwise each recorded file is removed (per-file
`OSError`s are printed, never fatal) and the directory tree is removed. -/
def uninstall_directory (getManifest : String → ManifestParse)
    (ledger : Option (List String)) (directory : String) :
    Except PyError (Bool × List FsOp) :=
  match getManifest directory with
  | .invalid _ =>
    match evalGlobal "ext" with
    | .error e => .error e
    | .ok _ => .ok (false, [])
  | .ok _ =>
    let installed_files := ledger.getD []
    .ok (true, installed_files.map (fun fn => FsOp.removeFile fn)
        ++ [FsOp.rmtree directory])

/-! ## `Installer.install_dependencies` -/

/-- A message printed by the dependency scan of
`install_dependencies`. -/
inductive DepMsg (α : Type) where
  | warnUnsatisfied (name : String) (selector : α)
  | skipSatisfied (name : String) (selector : α)
  deriving Repr, DecidableEq

/-- The first loop of `install_dependencies`: scans `deps` in order,
queueing the entries whose package `find_package` does not find, and
printing a warning (selector unsatisfied by the installed version) or a
skip message (satisfied) for the entries it does find. -/
def scanDeps {α : Type} (find : String → Option PackageManifest)
    (sat : α → String → Bool) :
    List (String × α) → List (String × α) × List (DepMsg α)
  | [] => ([], [])
  | (name, version) :: rest =>
    let s := scanDeps find sat rest
    match find name with
    | none => ((name, version) :: s.1, s.2)
    | some dep =>
      (s.1, (if sat version dep.version then DepMsg.skipSatisfied name version
           else DepMsg.warnUnsatisfied name version) :: s.2)

/-- The second loop of `install_dependencies`: calls
`install_from_registry(name, version)` for each queued entry in turn,
returning `False` as soon as one fails.  Also returns the list of
calls actually made. -/
def runQueue {α : Type} (inst : String → α → Bool) :
    List (String × α) → Bool × List (String × α)
  | [] => (true, [])
  | (name, version) :: rest =>
    if inst name version then
      let r := runQueue inst rest
      (r.1, (name, version) :: r.2)
    else (false, [(name, version)])

/-- The method `Installer.install_dependencies(deps)`.  `find` is
`self.find_package`, `sat` applies a selector to a version string,
and `inst` is `self.install_from_registry`.  Returns the boolean
result, the registry-install calls made, and the messages printed by
the scan. -/
def install_dependencies {α : Type} (find : String → Option PackageManifest)
    (sat : α → String → Bool) (inst : String → α → Bool)
    (deps : List (String × α)) :
    Bool × List (String × α) × List (DepMsg α) :=
  let scanned := scanDeps find sat deps
  if scanned.1.isEmpty then (true, [], scanned.2)
  else
    let ran := runQueue inst scanned.1
    (ran.1, ran.2, scanned.2)

/-! ## `Installer.install_from_directory` -/

/-- The directory layout fixed when an `Installer` is constructed. -/
structure InstallerDirs where
  packages : String
  bin : String
  reference_dir : Option String
  deriving Repr, DecidableEq

/-- The exceptions `install_from_directory` handles when parsing a
manifest: `FileNotFoundError` or `InvalidPackageManifest`. -/
inductive ManifestError where
  | notFound
  | invalid (reason : String)
  deriving Repr, DecidableEq

/-- The environment a run of `install_from_directory` interacts with:
`getManifest` is `require.session.get_manifest` on
`<directory>/package.json`; `targetExists` is `os.path.exists`;
`uninstallOk` is the result `self.uninstall_directory` would return on
the target; `depsOk` is the result of `self.install_dependencies_for`;
`dirFiles` enumerates the regular files under a directory in
`os.walk` order (relative paths); `commandScriptFiles` and
`runnerScriptFiles` are the path lists returned by
`_script.make_command_script` and `_script.make_ppy_runner` for a
script name; `postinstallOk` tells whether `upython.main.run` on a
postinstall script completes without raising. -/
structure InstallEnv where
  getManifest : String → Except ManifestError PackageManifest
  targetExists : String → Bool
  uninstallOk : String → Bool
  depsOk : PackageManifest → Bool
  dirFiles : String → List String
  commandScriptFiles : String → List String
  runnerScriptFiles : String → List String
  postinstallOk : String → Bool

/-- Destination paths of the files copied by the
`walk_package_files` loop of `install_from_directory`. -/
def copiedDests (target_dir : String) (walked : List (String × String)) :
    List String :=
  walked.map (fun pr => joinPath target_dir pr.2)

/-- Paths created by `_script.make_command_script` over
`manifest.script`, in manifest order. -/
def scriptCreated (env : InstallEnv) (m : PackageManifest) : List String :=
  (m.script.map (fun s => env.commandScriptFiles s.1)).flatten

/-- Paths created by `_script.make_ppy_runner` over `manifest.bin`,
in manifest order. -/
def binCreated (env : InstallEnv) (m : PackageManifest) : List String :=
  (m.bin.map (fun s => env.runnerScriptFiles s.1)).flatten

/-- The operations of the copy phase of `install_from_directory`, in
program order: create the target directory; for each yielded file
create its parent directory and copy it; generate a command script per
`manifest.script` entry and a runner per `manifest.bin` entry; finally
write the recorded `installed_files` list — copy destinations, then
command-script creations, then runner creations — one per line to
`<target_dir>/.ppym-installed-files`. -/
def installOpsCore (env : InstallEnv) (m : PackageManifest)
    (target_dir : String) : List FsOp :=
  [FsOp.makedirs target_dir] ++
  ((walk_package_files m (env.dirFiles m.directory)).map (fun pr =>
      [FsOp.makedirs (dirname (joinPath target_dir pr.2)),
       FsOp.copyfile pr.1 (joinPath target_dir pr.2)])).flatten ++
  m.script.map (fun s => FsOp.makeCommandScript s.1) ++
  m.bin.map (fun s => FsOp.makePpyRunner s.1 (joinPath target_dir s.2)) ++
  [FsOp.writeFile (joinPath target_dir PPYM_INSTALLED_FILES)
      (copiedDests target_dir (walk_package_files m (env.dirFiles m.directory))
        ++ scriptCreated env m ++ binCreated env m)]

/-- The portion of `install_from_directory` that runs once the target
directory is clear: dependency installation, then the copy phase
(`installOpsCore`), then the postinstall hook, whose failure makes the
whole call fail after everything else already happened.  `pre` carries
the operations already performed (the uninstall of a pre-existing
target in upgrade mode). -/
def installFromDirectoryBody (env : InstallEnv) (m : PackageManifest)
    (target_dir : String) (pre : List FsOp) : Bool × List FsOp :=
  if !env.depsOk m then (false, pre)
  else
    match m.postinstall with
    | none => (true, pre ++ installOpsCore env m target_dir)
    | some p =>
      (env.postinstallOk (joinPath target_dir p),
       pre ++ installOpsCore env m target_dir
         ++ [FsOp.runScript (joinPath target_dir p)])

/-- The target-directory check of `install_from_directory`: an existing
target is a successful no-op unless `upgrade` is set, in which case the
existing target is uninstalled first (aborting on failure). -/
def installFromDirectoryMain (dirs : InstallerDirs) (upgrade : Bool)
    (env : InstallEnv) (m : PackageManifest) : Bool × List FsOp :=
  let target_dir := joinPath dirs.packages m.name
  if env.targetExists target_dir then
    if !upgrade then (true, [])
    else if !env.uninstallOk target_dir then
      (false, [FsOp.uninstallDir target_dir])
    else installFromDirectoryBody env m target_dir [FsOp.uninstallDir target_dir]
  else installFromDirectoryBody env m target_dir []

/-- The method `Installer.install_from_directory(directory, expect)`:
parses the manifest (aborting on `FileNotFoundError` or
`InvalidPackageManifest`), validates the expected `(name, version)`
pair when given, and proceeds with the target-directory check and the
install body.  Returns the boolean result together with the trace of
filesystem operations performed. -/
def install_from_directory (dirs : InstallerDirs) (upgrade : Bool)
    (env : InstallEnv) (directory : String)
    (expect : Option (String × String)) : Bool × List FsOp :=
  match env.getManifest directory with
  | .error _ => (false, [])
  | .ok m =>
    match expect with
    | some e =>
      if (m.name, m.version) ≠ e then (false, [])
      else installFromDirectoryMain dirs upgrade env m
    | none => installFromDirectoryMain dirs upgrade env m

/-! ## The `upm install` command (`main.py`) -/

/-- Failure of `refstring.parse`. -/
inductive RefError where
  | invalidFormat
  deriving Repr, DecidableEq

/-- Modelled from the spec: `refstring.parse`, whose source is not part
of this repository (it is required as `@ppym/refstring`).  Per §4.3 of
the specification, the grammar is an optional version-selector suffix
introduced by `@`; everything before the `@` (or the whole string if
there is none) is the package name, and an empty name portion fails
with InvalidFormat. -/
def refstringParse (s : String) : Except RefError (String × Option String) :=
  let name := String.mk (s.data.takeWhile (fun c => c ≠ '@'))
  let version : Option String :=
    if name.length = s.length then none
    else some (String.mk (s.data.drop (name.data.length + 1)))
  if name = "" then .error .invalidFormat else .ok (name, version)

/-- The installation route the `install` command dispatches to. -/
inductive InstallSource where
  | fromDirectory (path : String)
  | fromArchive (path : String)
  | fromRegistry (package selector : String)
  deriving Repr, DecidableEq

/-- The environment the `install` command consults: `os.path.isdir`,
`os.path.isfile`, and the boolean results of the three `Installer`
entry points. -/
structure CliEnv where
  isdir : String → Bool
  isfile : String → Bool
  runDirectory : String → Bool
  runArchive : String → Bool
  runRegistry : String → String → Bool

/-- The observable outcome of the `install` command: the flags the
`Installer` was built with, the route taken, the boolean the route
returned, what was printed afterwards, and the returned exit status. -/
structure CliInstallResult where
  installerUpgrade : Bool
  installerGlobal : Bool
  action : InstallSource
  success : Bool
  printed : List String
  exitCode : Nat
  deriving Repr, DecidableEq

/-- The `install` command of `main.py`: builds an
`Installer(upgrade=upgrade, global_=global_)`; an existing directory
is installed from directory, else an existing file from archive, else
the argument is parsed as a reference string and installed from the
registry — with `selector = ref.version or semver.Selector('*')`, the
any-version selector (modelled from the spec as the string `"*"`)
taken when the reference carries no selector.  On failure it prints
`Installation failed` and returns exit status 1, otherwise 0; a
reference-string parse failure propagates. -/
def install_command (env : CliEnv) (package : String)
    (upgrade global_ : Bool) : Except RefError CliInstallResult :=
  let finish : InstallSource → Bool → CliInstallResult := fun action success =>
    { installerUpgrade := upgrade, installerGlobal := global_,
      action := action, success := success,
      printed := if success then [] else ["Installation failed"],
      exitCode := if success then 0 else 1 }
  if env.isdir package then
    .ok (finish (.fromDirectory package) (env.runDirectory package))
  else if env.isfile package then
    .ok (finish (.fromArchive package) (env.runArchive package))
  else
    match refstringParse package with
    | .error e => .error e
    | .ok (name, version) =>
      let selector := version.getD "*"
      .ok (finish (.fromRegistry name selector) (env.runRegistry name selector))

/-! ## Concrete fixtures used to evaluate the theorems -/

/-- A manifest declaring `dist.include_files = ["*.txt"]`. -/
def sampleTxtManifest : PackageManifest :=
  { name := "sample", version := "1.0.0", dependencies := [],
    dist_include_files := ["*.txt"], script := [], bin := [],
    postinstall := none, directory := "/pkg" }

/-- A package directory containing exactly `package.json`, `a.txt`,
`b.py` and `.git/config` as regular files. -/
def sampleTxtFiles : List String :=
  ["package.json", "a.txt", "b.py", ".git/config"]

/-- The local-mode directory layout of an `Installer`. -/
def demoDirs : InstallerDirs :=
  { packages := "ppy_modules", bin := "ppy_modules/.bin",
    reference_dir := some "/cwd" }

/-- A plain manifest with no scripts and no postinstall hook. -/
def demoManifest : PackageManifest :=
  { name := "demo", version := "1.0.0", dependencies := [],
    dist_include_files := [], script := [], bin := [],
    postinstall := none, directory := "/src/demo" }

/-- A manifest whose postinstall hook is `setup.py`. -/
def postManifest : PackageManifest :=
  { name := "hooked", version := "1.0.0", dependencies := [],
    dist_include_files := [], script := [], bin := [],
    postinstall := some "setup.py", directory := "/src/hooked" }

/-- A manifest for a package directory that happens to contain a file
named `.ppym-installed-files` (for instance, a previously installed
copy of the package). -/
def ledgerManifest : PackageManifest :=
  { name := "reinstalled", version := "1.0.0", dependencies := [],
    dist_include_files := [], script := [], bin := [],
    postinstall := none, directory := "/src/reinstalled" }

/-- A manifest for a clean source directory. -/
def cleanManifest : PackageManifest :=
  { name := "clean", version := "1.0.0", dependencies := [],
    dist_include_files := [], script := [], bin := [],
    postinstall := none, directory := "/src/clean" }

/-- An environment whose target directory already exists and whose
uninstall fails. -/
def demoEnv : InstallEnv :=
  { getManifest := fun d =>
      if d = "/src/demo" then .ok demoManifest else .error .notFound,
    targetExists := fun _ => true,
    uninstallOk := fun _ => false,
    depsOk := fun _ => true,
    dirFiles := fun _ => ["package.json", "main.py"],
    commandScriptFiles := fun _ => [],
    runnerScriptFiles := fun _ => [],
    postinstallOk := fun _ => true }

/-- An environment for a fresh install of `postManifest` whose
postinstall script fails. -/
def hookedEnv : InstallEnv :=
  { getManifest := fun d =>
      if d = "/src/hooked" then .ok postManifest else .error .notFound,
    targetExists := fun _ => false,
    uninstallOk := fun _ => true,
    depsOk := fun _ => true,
    dirFiles := fun _ => ["package.json", "main.py"],
    commandScriptFiles := fun _ => [],
    runnerScriptFiles := fun _ => [],
    postinstallOk := fun _ => false }

/-- An environment for a fresh install of `ledgerManifest` from a
source directory that contains a `.ppym-installed-files` file. -/
def ledgerEnv : InstallEnv :=
  { getManifest := fun d =>
      if d = "/src/reinstalled" then .ok ledgerManifest else .error .notFound,
    targetExists := fun _ => false,
    uninstallOk := fun _ => true,
    depsOk := fun _ => true,
    dirFiles := fun _ => ["package.json", ".ppym-installed-files", "main.py"],
    commandScriptFiles := fun _ => [],
    runnerScriptFiles := fun _ => [],
    postinstallOk := fun _ => true }

/-- An environment for a fresh install of `cleanManifest`. -/
def cleanEnv : InstallEnv :=
  { getManifest := fun d =>
      if d = "/src/clean" then .ok cleanManifest else .error .notFound,
    targetExists := fun _ => false,
    uninstallOk := fun _ => true,
    depsOk := fun _ => true,
    dirFiles := fun _ => ["package.json", "main.py"],
    commandScriptFiles := fun _ => [],
    runnerScriptFiles := fun _ => [],
    postinstallOk := fun _ => true }

/-- A CLI environment where the package argument names neither a
directory nor a file and every registry install fails. -/
def cliEnvRegistry : CliEnv :=
  { isdir := fun _ => false,
    isfile := fun _ => false,
    runDirectory := fun _ => true,
    runArchive := fun _ => true,
    runRegistry := fun _ _ => false }

/-! ## Helper lemmas -/

theorem joinPath_right_inj {a b c : String}
    (h : joinPath a b = joinPath a c) : b = c := by
  unfold joinPath at h
  have hd := congrArg String.data h
  simp only [String.data_append, List.append_assoc] at hd
  have h1 := List.append_cancel_left hd
  have h2 := List.append_cancel_left h1
  cases b; cases c
  simp only at h2
  simp [h2]

theorem match_any_pattern_iff (p : String) (patterns : List String) :
    _match_any_pattern p patterns = true ↔ ∃ pat ∈ patterns, fnmatch p pat = true := by
  simp [_match_any_pattern, List.any_eq_true]

theorem scanDeps_fst {α : Type} (find : String → Option PackageManifest)
    (sat : α → String → Bool) (deps : List (String × α)) :
    (scanDeps find sat deps).1 = deps.filter (fun p => (find p.1).isNone) := by
  induction deps with
  | nil => rfl
  | cons hd tl ih =>
    obtain ⟨name, version⟩ := hd
    simp only [scanDeps]
    cases hf : find name with
    | none => simp [List.filter, hf, ih]
    | some dep => simp [List.filter, hf, ih]

theorem runQueue_true_iff {α : Type} (inst : String → α → Bool)
    (q : List (String × α)) :
    (runQueue inst q).1 = true ↔ ∀ p ∈ q, inst p.1 p.2 = true := by
  induction q with
  | nil => simp [runQueue]
  | cons hd tl ih =>
    obtain ⟨name, version⟩ := hd
    by_cases hi : inst name version
    · simp [runQueue, hi, ih]
    · simp [runQueue, hi]

theorem runQueue_calls_of_true {α : Type} (inst : String → α → Bool)
    (q : List (String × α)) (h : (runQueue inst q).1 = true) :
    (runQueue inst q).2 = q := by
  induction q with
  | nil => rfl
  | cons hd tl ih =>
    obtain ⟨name, version⟩ := hd
    by_cases hi : inst name version
    · simp only [runQueue, hi, if_true] at h ⊢
      simp [ih h]
    · simp [runQueue, hi] at h

theorem runQueue_calls_append {α : Type} (inst : String → α → Bool)
    (q : List (String × α)) : ∃ t, q = (runQueue inst q).2 ++ t := by
  induction q with
  | nil => exact ⟨[], rfl⟩
  | cons hd tl ih =>
    obtain ⟨name, version⟩ := hd
    by_cases hi : inst name version
    · obtain ⟨t, ht⟩ := ih
      exact ⟨t, by simp [runQueue, hi]; exact ht⟩
    · exact ⟨tl, by simp [runQueue, hi]⟩

theorem runQueue_calls_of_false {α : Type} (inst : String → α → Bool)
    (q : List (String × α)) (h : (runQueue inst q).1 = false) :
    ∃ pre c, (runQueue inst q).2 = pre ++ [c] ∧ inst c.1 c.2 = false ∧
      ∀ p ∈ pre, inst p.1 p.2 = true := by
  induction q with
  | nil => simp [runQueue] at h
  | cons hd tl ih =>
    obtain ⟨name, version⟩ := hd
    by_cases hi : inst name version
    · simp only [runQueue, hi, if_true] at h ⊢
      obtain ⟨pre, c, hpre, hc, hall⟩ := ih h
      refine ⟨(name, version) :: pre, c, by simp [hpre], hc, ?_⟩
      intro p hp
      rcases List.mem_cons.1 hp with hp | hp
      · subst hp; exact hi
      · exact hall p hp
    · refine ⟨[], (name, version), ?_, by simpa using hi, by simp⟩
      simp [runQueue, hi]

theorem installFromDirectoryBody_trace (env : InstallEnv)
    (m : PackageManifest) (target_dir : String) (pre : List FsOp) :
    ∃ rest, (installFromDirectoryBody env m target_dir pre).2 = pre ++ rest := by
  unfold installFromDirectoryBody
  by_cases hd : env.depsOk m
  · cases hp : m.postinstall with
    | none => exact ⟨installOpsCore env m target_dir, by simp [hd, hp]⟩
    | some p =>
      exact ⟨installOpsCore env m target_dir
          ++ [FsOp.runScript (joinPath target_dir p)],
        by simp [hd, hp]⟩
  · exact ⟨[], by simp [hd]⟩

/-! ## Claim theorems -/

/-- C8: for every relative path `p` and every include-pattern list, if
`p` matches at least one exclude pattern then `_check_include_file`
rejects `p` regardless of the include patterns; and when no include
patterns are declared, every path matching no exclude pattern is
accepted. -/
theorem C8_check_include_exclusion_precedence
    (p : String) (includes excludes : List String) :
    ((∃ pat ∈ excludes, fnmatch p pat = true) →
      _check_include_file p includes excludes = false) ∧
    (includes = [] → (∀ pat ∈ excludes, fnmatch p pat = false) →
      _check_include_file p includes excludes = true) := by
  constructor
  · intro h
    have hm : _match_any_pattern p excludes = true :=
      (match_any_pattern_iff p excludes).2 h
    simp [_check_include_file, hm]
  · intro hinc hall
    have hm : _match_any_pattern p excludes = false := by
      rw [Bool.eq_false_iff]
      intro hc
      obtain ⟨pat, hmem, hpat⟩ := (match_any_pattern_iff p excludes).1 hc
      rw [hall pat hmem] at hpat
      cases hpat
    simp [_check_include_file, hm, hinc]

/-- C8 witness: `dist/x.tar.gz` is excluded by `dist/*` even with no
include patterns, and `readme.md` is accepted with no patterns at
all. -/
theorem C8_witness :
    _check_include_file "dist/x.tar.gz" [] ["dist/*"] = false ∧
    _check_include_file "readme.md" [] [] = true := by
  constructor
  · exact (C8_check_include_exclusion_precedence "dist/x.tar.gz" [] ["dist/*"]).1
      ⟨"dist/*", by decide, by decide⟩
  · exact (C8_check_include_exclusion_precedence "readme.md" [] []).2 rfl
      (by decide)

/-- C1 counterexample: for the manifest with
`dist.include_files = ["*.txt"]` over a directory containing exactly
`package.json`, `a.txt`, `b.py` and `.git/config`, the relative paths
yielded by `walk_package_files` do NOT form the set
`{package.json, a.txt}`: `a.txt` is not yielded, because the
`include_files` patterns are also applied as exclude patterns and
`a.txt` matches the exclude pattern `*.txt`. -/
theorem C1_walk_counterexample :
    ¬ (∀ r : String,
        r ∈ (walk_package_files sampleTxtManifest sampleTxtFiles).map Prod.snd ↔
          (r = "package.json" ∨ r = "a.txt")) := by
  intro h
  have hmem := (h "a.txt").2 (Or.inr rfl)
  revert hmem
  decide

/-- C1 (amended): on that same directory the yielded relative-path set
is exactly `{package.json}` — the manifest file is always yielded
regardless of the declared patterns (in general: whenever
`package.json` is among the walked files it is yielded), while `a.txt`
is rejected because the `dist.include_files` patterns also feed the
exclude check. -/
theorem C1_walk_manifest_always_yielded :
    ((walk_package_files sampleTxtManifest sampleTxtFiles).map Prod.snd
        = ["package.json"]) ∧
    (∀ (m : PackageManifest) (files : List String),
      "package.json" ∈ files →
        "package.json" ∈ (walk_package_files m files).map Prod.snd) := by
  constructor
  · decide
  · intro m files h
    unfold walk_package_files
    simp only [List.map_map, List.mem_map, Function.comp]
    refine ⟨"package.json", ?_, rfl⟩
    exact List.mem_filter.2 ⟨h, by simp⟩

/-- C1 witness: a directory holding only the manifest file yields it. -/
theorem C1_walk_manifest_always_yielded_witness :
    "package.json" ∈
      (walk_package_files sampleTxtManifest ["package.json"]).map Prod.snd :=
  C1_walk_manifest_always_yielded.2 sampleTxtManifest ["package.json"]
    (by decide)

/-- C2: every call to `install_from_registry` that gets past the
already-installed short-circuit (package not found locally, or upgrade
mode enabled) performs the registry `find_package` query and then
raises an unhandled `NameError` instead of returning a boolean: the
function references the unbound global `download` (the module binds
the utility as `_download`). -/
theorem C2_registry_install_raises_name_error
    (upgrade : Bool) (found : Option PackageManifest) (selOk : String → Bool)
    (info : RegistryInfo) (package_name : String) (rest : Except PyError Bool)
    (h : found = none ∨ upgrade = true) :
    (install_from_registry upgrade found selOk info package_name
        rest).registryQueried = true ∧
    (∀ b, (install_from_registry upgrade found selOk info package_name
        rest).result ≠ .ok b) ∧
    (info.name = package_name →
      (install_from_registry upgrade found selOk info package_name
          rest).result = .error (.nameError "download")) := by
  have hdl : evalGlobal "download" = .error (.nameError "download") := rfl
  cases found with
  | none =>
    refine ⟨rfl, ?_, ?_⟩
    · intro b
      simp only [install_from_registry, registryDownloadPhase, hdl]
      by_cases hn : info.name = package_name <;> simp [hn]
    · intro hn
      simp [install_from_registry, registryDownloadPhase, hdl, hn]
  | some p =>
    have hu : upgrade = true := by
      rcases h with h | h
      · cases h
      · exact h
    subst hu
    refine ⟨rfl, ?_, ?_⟩
    · intro b
      simp only [install_from_registry, registryDownloadPhase, hdl,
        Bool.not_true, if_false]
      by_cases hn : info.name = package_name <;> simp [hn]
    · intro hn
      simp [install_from_registry, registryDownloadPhase, hdl, hn]

/-- C2 witness: an upgrade-mode registry install of a package the
registry resolves under its own name crashes with
`NameError: download`. -/
theorem C2_registry_install_witness :
    (install_from_registry true none (fun _ => true)
        { name := "foo", version := "1.0.0" } "foo" (.ok true)).result
      = .error (.nameError "download") :=
  (C2_registry_install_raises_name_error true none (fun _ => true)
      { name := "foo", version := "1.0.0" } "foo" (.ok true)
      (Or.inl rfl)).2.2 rfl

/-- C3 (code bug): when the manifest of `directory` is invalid,
`uninstall_directory` does not print a diagnostic and return `False`
as intended: formatting the diagnostic evaluates the unbound name
`ext` (the caught exception is bound as `exc`), so the call raises
`NameError` to its caller instead. -/
theorem C3_uninstall_invalid_manifest_raises
    (reason : String) (ledger : Option (List String)) (directory : String) :
    uninstall_directory (fun _ => .invalid reason) ledger directory
      = .error (.nameError "ext") := rfl

/-- C4: with the package already installed and upgrade mode disabled,
`install_from_registry` returns `True` without querying the registry
(and hence without downloading or installing anything), printing the
mismatch warning exactly when the installed version fails the
selector. -/
theorem C4_already_installed_short_circuit (pkg : PackageManifest)
    (selOk : String → Bool) (info : RegistryInfo) (package_name : String)
    (rest : Except PyError Bool) :
    install_from_registry false (some pkg) selOk info package_name rest
      = { result := .ok true, registryQueried := false,
          warned := !selOk pkg.version } := rfl

/-- C5: `install_dependencies` never calls `install_from_registry` for
an entry whose package `find_package` finds; the queue is exactly the
missing entries, in order, with their original selectors, and the
calls made are an initial segment of it; an empty queue succeeds
immediately with no calls; the result is `True` iff every queued
install succeeds, in which case every queued entry was called exactly
once; on failure the calls stop at the first failing entry. -/
theorem C5_install_dependencies_spec {α : Type}
    (find : String → Option PackageManifest) (sat : α → String → Bool)
    (inst : String → α → Bool) (deps : List (String × α)) :
    (∀ p ∈ (install_dependencies find sat inst deps).2.1, find p.1 = none) ∧
    (∃ t, deps.filter (fun p => (find p.1).isNone)
        = (install_dependencies find sat inst deps).2.1 ++ t) ∧
    (deps.filter (fun p => (find p.1).isNone) = [] →
      (install_dependencies find sat inst deps).1 = true ∧
      (install_dependencies find sat inst deps).2.1 = []) ∧
    ((install_dependencies find sat inst deps).1 = true ↔
      ∀ p ∈ deps.filter (fun p => (find p.1).isNone), inst p.1 p.2 = true) ∧
    ((install_dependencies find sat inst deps).1 = true →
      (install_dependencies find sat inst deps).2.1
        = deps.filter (fun p => (find p.1).isNone)) ∧
    ((install_dependencies find sat inst deps).1 = false →
      ∃ pre c, (install_dependencies find sat inst deps).2.1 = pre ++ [c] ∧
        inst c.1 c.2 = false ∧ ∀ p ∈ pre, inst p.1 p.2 = true) := by
  have hq := scanDeps_fst find sat deps
  by_cases hempty : (scanDeps find sat deps).1.isEmpty
  · have hnil : (scanDeps find sat deps).1 = [] := List.isEmpty_iff.1 hempty
    have hfilter : deps.filter (fun p => (find p.1).isNone) = [] := by
      rw [← hq, hnil]
    refine ⟨?_, ⟨[], ?_⟩, ?_, ?_, ?_, ?_⟩
    · intro p hp
      simp [install_dependencies, hempty] at hp
    · simp [install_dependencies, hempty, hfilter]
    · intro _
      simp [install_dependencies, hempty]
    · simp [install_dependencies, hempty, hfilter]
    · intro _
      simp [install_dependencies, hempty, hfilter]
    · intro hfalse
      simp [install_dependencies, hempty] at hfalse
  · have hout : install_dependencies find sat inst deps
        = ((runQueue inst (scanDeps find sat deps).1).1,
           (runQueue inst (scanDeps find sat deps).1).2,
           (scanDeps find sat deps).2) := by
      simp [install_dependencies, hempty]
    have hprefix := runQueue_calls_append inst (scanDeps find sat deps).1
    refine ⟨?_, ?_, ?_, ?_, ?_, ?_⟩
    · intro p hp
      rw [hout] at hp
      obtain ⟨t, ht⟩ := hprefix
      have hpq : p ∈ (scanDeps find sat deps).1 := by
        rw [ht]
        exact List.mem_append_left t hp
      rw [hq] at hpq
      have := (List.mem_filter.1 hpq).2
      simpa [Option.isNone_iff_eq_none] using this
    · obtain ⟨t, ht⟩ := hprefix
      exact ⟨t, by rw [hout, ← hq]; exact ht⟩
    · intro hfilter
      rw [← hq] at hfilter
      have hemp : (scanDeps find sat deps).1.isEmpty = true := by
        rw [hfilter]; rfl
      exact absurd hemp hempty
    · rw [hout, ← hq]
      exact runQueue_true_iff inst (scanDeps find sat deps).1
    · intro htrue
      rw [hout] at htrue ⊢
      rw [← hq]
      exact runQueue_calls_of_true inst (scanDeps find sat deps).1 htrue
    · intro hfalse
      rw [hout] at hfalse ⊢
      exact runQueue_calls_of_false inst (scanDeps find sat deps).1 hfalse

/-- C5 witness: with `bar` not locally found, `install_dependencies`
on `{"bar": selector}` performs exactly one registry install, for
`bar` with that selector. -/
theorem C5_install_dependencies_witness :
    (install_dependencies (fun _ => (none : Option PackageManifest))
        (fun (_ : String) (_ : String) => true) (fun _ _ => true)
        [("bar", "sel")]).2.1 = [("bar", "sel")] := by
  have h := C5_install_dependencies_spec
    (fun _ => (none : Option PackageManifest))
    (fun (_ : String) (_ : String) => true) (fun _ _ => true) [("bar", "sel")]
  exact h.2.2.2.2.1 (h.2.2.2.1.2 (by decide))

/-- C6: the `install` command builds the installer with the given
upgrade and global flags; it dispatches to install-from-directory for
an existing directory, else install-from-archive for an existing file,
else parses the argument as a reference string (defaulting to the
any-version selector when none is given) and installs from the
registry; a failed installation prints `Installation failed` and
yields exit status 1, a successful one yields exit status 0. -/
theorem C6_install_command_dispatch (env : CliEnv) (package : String)
    (upgrade global_ : Bool) :
    (∀ r, install_command env package upgrade global_ = .ok r →
      r.installerUpgrade = upgrade ∧ r.installerGlobal = global_ ∧
      r.exitCode = (if r.success then 0 else 1) ∧
      r.printed = (if r.success then [] else ["Installation failed"])) ∧
    (env.isdir package = true →
      ∃ r, install_command env package upgrade global_ = .ok r ∧
        r.action = .fromDirectory package ∧
        r.success = env.runDirectory package) ∧
    (env.isdir package = false → env.isfile package = true →
      ∃ r, install_command env package upgrade global_ = .ok r ∧
        r.action = .fromArchive package ∧
        r.success = env.runArchive package) ∧
    (∀ name version, env.isdir package = false → env.isfile package = false →
      refstringParse package = .ok (name, version) →
      ∃ r, install_command env package upgrade global_ = .ok r ∧
        r.action = .fromRegistry name (version.getD "*") ∧
        r.success = env.runRegistry name (version.getD "*")) := by
  refine ⟨?_, ?_, ?_, ?_⟩
  · intro r hr
    unfold install_command at hr
    by_cases hd : env.isdir package = true
    · rw [if_pos hd] at hr
      cases hr
      exact ⟨rfl, rfl, rfl, rfl⟩
    · rw [if_neg hd] at hr
      by_cases hf : env.isfile package = true
      · rw [if_pos hf] at hr
        cases hr
        exact ⟨rfl, rfl, rfl, rfl⟩
      · rw [if_neg hf] at hr
        cases hp : refstringParse package with
        | error e => rw [hp] at hr; cases hr
        | ok nv =>
          rw [hp] at hr
          obtain ⟨name, version⟩ := nv
          cases hr
          exact ⟨rfl, rfl, rfl, rfl⟩
  · intro hd
    unfold install_command
    rw [if_pos hd]
    exact ⟨_, rfl, rfl, rfl⟩
  · intro hd hf
    unfold install_command
    rw [if_neg (show ¬ env.isdir package = true by simp [hd]), if_pos hf]
    exact ⟨_, rfl, rfl, rfl⟩
  · intro name version hd hf hp
    unfold install_command
    rw [if_neg (show ¬ env.isdir package = true by simp [hd]),
      if_neg (show ¬ env.isfile package = true by simp [hf]), hp]
    exact ⟨_, rfl, rfl, rfl⟩

/-- C6 witness: with `foo` naming neither a directory nor a file and
the registry install failing, the command dispatches to the registry
with the any-version selector, prints `Installation failed`, and
returns exit status 1. -/
theorem C6_install_command_witness :
    ∃ r, install_command cliEnvRegistry "foo" false false = .ok r ∧
      r.action = .fromRegistry "foo" "*" ∧ r.success = false ∧
      r.exitCode = 1 ∧ r.printed = ["Installation failed"] := by
  obtain ⟨r, hr, ha, hs⟩ :=
    (C6_install_command_dispatch cliEnvRegistry "foo" false false).2.2.2
      "foo" none rfl rfl rfl
  obtain ⟨-, -, he, hpr⟩ :=
    (C6_install_command_dispatch cliEnvRegistry "foo" false false).1 r hr
  have hs' : r.success = false := hs
  refine ⟨r, hr, by simpa using ha, hs', ?_, ?_⟩
  · rw [he, hs']; rfl
  · rw [hpr, hs']; rfl

/-- C7: when the computed target directory already exists,
`install_from_directory` without upgrade is a successful no-op — no
filesystem operation at all; with upgrade it first uninstalls the
existing target, aborting with failure (having performed nothing but
that uninstall attempt, in particular no copy) when the uninstall
fails, and otherwise recording the uninstall before any further
operation. -/
theorem C7_existing_target_no_op (dirs : InstallerDirs) (env : InstallEnv)
    (directory : String) (expect : Option (String × String))
    (m : PackageManifest)
    (hm : env.getManifest directory = .ok m)
    (hexp : expect = none ∨ expect = some (m.name, m.version))
    (hex : env.targetExists (joinPath dirs.packages m.name) = true) :
    install_from_directory dirs false env directory expect = (true, []) ∧
    (env.uninstallOk (joinPath dirs.packages m.name) = false →
      install_from_directory dirs true env directory expect =
        (false, [FsOp.uninstallDir (joinPath dirs.packages m.name)])) ∧
    (env.uninstallOk (joinPath dirs.packages m.name) = true →
      ∃ rest, (install_from_directory dirs true env directory expect).2 =
        FsOp.uninstallDir (joinPath dirs.packages m.name) :: rest) := by
  have hmain : ∀ u, install_from_directory dirs u env directory expect
      = installFromDirectoryMain dirs u env m := by
    intro u
    unfold install_from_directory
    rcases hexp with hexp | hexp <;> subst hexp <;> simp [hm]
  refine ⟨?_, ?_, ?_⟩
  · rw [hmain false]
    unfold installFromDirectoryMain
    simp [hex]
  · intro hu
    rw [hmain true]
    unfold installFromDirectoryMain
    simp [hex, hu]
  · intro hu
    rw [hmain true]
    unfold installFromDirectoryMain
    simp only [hex, hu, Bool.not_true, if_true, if_false]
    obtain ⟨rest, hrest⟩ := installFromDirectoryBody_trace env m
      (joinPath dirs.packages m.name) [FsOp.uninstallDir (joinPath dirs.packages m.name)]
    exact ⟨rest, by simpa using hrest⟩

/-- C7 witness: on the concrete environment whose target exists and
whose uninstall fails, the non-upgrade call is a no-op success and the
upgrade call aborts after the sole uninstall attempt. -/
theorem C7_existing_target_witness :
    install_from_directory demoDirs false demoEnv "/src/demo" none
      = (true, []) ∧
    install_from_directory demoDirs true demoEnv "/src/demo" none
      = (false, [FsOp.uninstallDir (joinPath "ppy_modules" "demo")]) := by
  have h := C7_existing_target_no_op demoDirs demoEnv "/src/demo" none
    demoManifest rfl (Or.inl rfl) rfl
  exact ⟨h.1, h.2.1 rfl⟩

theorem installOpsCore_not_destructive (env : InstallEnv)
    (m : PackageManifest) (target_dir : String) :
    ∀ op ∈ installOpsCore env m target_dir, op.isDestructive = false := by
  intro op hop
  unfold installOpsCore at hop
  rcases List.mem_append.1 hop with hop | hop
  · rcases List.mem_append.1 hop with hop | hop
    · rcases List.mem_append.1 hop with hop | hop
      · rcases List.mem_append.1 hop with hop | hop
        · obtain rfl := List.mem_singleton.1 hop
          rfl
        · obtain ⟨l, hl, hopl⟩ := List.mem_flatten.1 hop
          obtain ⟨pr, hpr, rfl⟩ := List.mem_map.1 hl
          simp only [List.mem_cons, List.mem_singleton, List.not_mem_nil,
            or_false] at hopl
          rcases hopl with rfl | rfl <;> rfl
      · obtain ⟨s, hs, rfl⟩ := List.mem_map.1 hop
        rfl
    · obtain ⟨s, hs, rfl⟩ := List.mem_map.1 hop
      rfl
  · obtain rfl := List.mem_singleton.1 hop
    rfl

theorem installOpsCore_writeFile (env : InstallEnv) (m : PackageManifest)
    (target_dir : String) (path : String) (lines : List String)
    (h : FsOp.writeFile path lines ∈ installOpsCore env m target_dir) :
    path = joinPath target_dir PPYM_INSTALLED_FILES ∧
    lines = copiedDests target_dir
        (walk_package_files m (env.dirFiles m.directory))
      ++ scriptCreated env m ++ binCreated env m := by
  unfold installOpsCore at h
  rcases List.mem_append.1 h with h | h
  · rcases List.mem_append.1 h with h | h
    · rcases List.mem_append.1 h with h | h
      · rcases List.mem_append.1 h with h | h
        · obtain heq := List.mem_singleton.1 h
          cases heq
        · obtain ⟨l, hl, hopl⟩ := List.mem_flatten.1 h
          obtain ⟨pr, hpr, rfl⟩ := List.mem_map.1 hl
          simp only [List.mem_cons, List.mem_singleton, List.not_mem_nil,
            or_false] at hopl
          rcases hopl with heq | heq <;> cases heq
      · obtain ⟨s, hs, heq⟩ := List.mem_map.1 h
        cases heq
    · obtain ⟨s, hs, heq⟩ := List.mem_map.1 h
      cases heq
  · obtain heq := List.mem_singleton.1 h
    injection heq with h1 h2
    exact ⟨h1, h2⟩

/-- C9: the complete installed-files ledger is written before the
postinstall script is invoked; when the postinstall script fails the
install returns failure, having performed nothing after the ledger
write except running the script — and no operation in the whole trace
deletes anything, so every copied file, every generated launcher, and
the full ledger remain on disk. -/
theorem C9_postinstall_failure_preserves_files (dirs : InstallerDirs)
    (upgrade : Bool) (env : InstallEnv) (directory p : String)
    (m : PackageManifest)
    (hm : env.getManifest directory = .ok m)
    (hex : env.targetExists (joinPath dirs.packages m.name) = false)
    (hdeps : env.depsOk m = true)
    (hpost : m.postinstall = some p)
    (hfail : env.postinstallOk
        (joinPath (joinPath dirs.packages m.name) p) = false) :
    (install_from_directory dirs upgrade env directory none).1 = false ∧
    (∃ pre, (install_from_directory dirs upgrade env directory none).2
        = pre ++
          [FsOp.writeFile
              (joinPath (joinPath dirs.packages m.name) PPYM_INSTALLED_FILES)
              (copiedDests (joinPath dirs.packages m.name)
                  (walk_package_files m (env.dirFiles m.directory))
                ++ scriptCreated env m ++ binCreated env m),
           FsOp.runScript (joinPath (joinPath dirs.packages m.name) p)]) ∧
    (∀ op ∈ (install_from_directory dirs upgrade env directory none).2,
      op.isDestructive = false) := by
  have hbody : install_from_directory dirs upgrade env directory none
      = (false, installOpsCore env m (joinPath dirs.packages m.name)
          ++ [FsOp.runScript (joinPath (joinPath dirs.packages m.name) p)]) := by
    unfold install_from_directory installFromDirectoryMain
      installFromDirectoryBody
    rw [hm]
    simp [hex, hdeps, hpost, hfail]
  refine ⟨by rw [hbody], ?_, ?_⟩
  · refine ⟨[FsOp.makedirs (joinPath dirs.packages m.name)] ++
      ((walk_package_files m (env.dirFiles m.directory)).map (fun pr =>
          [FsOp.makedirs (dirname (joinPath (joinPath dirs.packages m.name) pr.2)),
           FsOp.copyfile pr.1 (joinPath (joinPath dirs.packages m.name) pr.2)])).flatten ++
      m.script.map (fun s => FsOp.makeCommandScript s.1) ++
      m.bin.map (fun s => FsOp.makePpyRunner s.1
        (joinPath (joinPath dirs.packages m.name) s.2)), ?_⟩
    rw [hbody]
    unfold installOpsCore
    simp [List.append_assoc]
  · intro op hop
    rw [hbody] at hop
    rcases List.mem_append.1 hop with hop | hop
    · exact installOpsCore_not_destructive env m _ op hop
    · obtain rfl := List.mem_singleton.1 hop
      rfl

/-- C9 witness: a concrete fresh install whose postinstall fails
returns failure with the ledger written just before the script run. -/
theorem C9_postinstall_failure_witness :
    (install_from_directory demoDirs false hookedEnv "/src/hooked" none).1
      = false ∧
    ∃ pre, (install_from_directory demoDirs false hookedEnv "/src/hooked" none).2
      = pre ++
        [FsOp.writeFile
            (joinPath (joinPath demoDirs.packages postManifest.name)
              PPYM_INSTALLED_FILES)
            (copiedDests (joinPath demoDirs.packages postManifest.name)
                (walk_package_files postManifest
                  (hookedEnv.dirFiles postManifest.directory))
              ++ scriptCreated hookedEnv postManifest
              ++ binCreated hookedEnv postManifest),
         FsOp.runScript
            (joinPath (joinPath demoDirs.packages postManifest.name)
              "setup.py")] := by
  have h := C9_postinstall_failure_preserves_files demoDirs false hookedEnv
    "/src/hooked" "setup.py" postManifest rfl rfl rfl rfl rfl
  exact ⟨h.1, h.2.1⟩

/-- C10 counterexample: installing from a source directory that itself
contains a file named `.ppym-installed-files` copies it to the ledger
path, so the written ledger lists the ledger file itself. -/
theorem C10_ledger_counterexample :
    FsOp.writeFile "ppy_modules/reinstalled/.ppym-installed-files"
        ["ppy_modules/reinstalled/package.json",
         "ppy_modules/reinstalled/.ppym-installed-files",
         "ppy_modules/reinstalled/main.py"]
      ∈ (install_from_directory demoDirs false ledgerEnv
          "/src/reinstalled" none).2 ∧
    "ppy_modules/reinstalled/.ppym-installed-files" ∈
      ["ppy_modules/reinstalled/package.json",
       "ppy_modules/reinstalled/.ppym-installed-files",
       "ppy_modules/reinstalled/main.py"] := by
  constructor <;> decide

/-- C10 (amended): after a successful copy phase the trace contains
exactly one ledger write, to `<targetDir>/.ppym-installed-files`,
whose lines are exactly — one per line, in order — the destination
path of every copied file, then the paths created for the manifest's
`script` entries, then those for its `bin` entries; and the ledger
path itself is absent from those lines PROVIDED no walked file is
itself named `.ppym-installed-files` and no generated script path
equals the ledger path. -/
theorem C10_ledger_lists_installed_files (dirs : InstallerDirs)
    (upgrade : Bool) (env : InstallEnv) (directory : String)
    (m : PackageManifest)
    (hm : env.getManifest directory = .ok m)
    (hex : env.targetExists (joinPath dirs.packages m.name) = false)
    (hdeps : env.depsOk m = true) :
    (FsOp.writeFile
        (joinPath (joinPath dirs.packages m.name) PPYM_INSTALLED_FILES)
        (copiedDests (joinPath dirs.packages m.name)
            (walk_package_files m (env.dirFiles m.directory))
          ++ scriptCreated env m ++ binCreated env m)
      ∈ (install_from_directory dirs upgrade env directory none).2) ∧
    (∀ path lines,
      FsOp.writeFile path lines
          ∈ (install_from_directory dirs upgrade env directory none).2 →
      path = joinPath (joinPath dirs.packages m.name) PPYM_INSTALLED_FILES ∧
      lines = copiedDests (joinPath dirs.packages m.name)
          (walk_package_files m (env.dirFiles m.directory))
        ++ scriptCreated env m ++ binCreated env m) ∧
    ((PPYM_INSTALLED_FILES ∉
        (walk_package_files m (env.dirFiles m.directory)).map Prod.snd ∧
      joinPath (joinPath dirs.packages m.name) PPYM_INSTALLED_FILES ∉
        scriptCreated env m ++ binCreated env m) →
      joinPath (joinPath dirs.packages m.name) PPYM_INSTALLED_FILES ∉
        copiedDests (joinPath dirs.packages m.name)
            (walk_package_files m (env.dirFiles m.directory))
          ++ scriptCreated env m ++ binCreated env m) := by
  have hbody : (install_from_directory dirs upgrade env directory none).2
      = installOpsCore env m (joinPath dirs.packages m.name)
        ++ (match m.postinstall with
            | none => []
            | some p => [FsOp.runScript
                (joinPath (joinPath dirs.packages m.name) p)]) := by
    unfold install_from_directory installFromDirectoryMain
      installFromDirectoryBody
    rw [hm]
    cases hp : m.postinstall with
    | none => simp [hex, hdeps, hp]
    | some p => simp [hex, hdeps, hp]
  refine ⟨?_, ?_, ?_⟩
  · rw [hbody]
    refine List.mem_append_left _ ?_
    unfold installOpsCore
    exact List.mem_append_right _ (List.mem_singleton.2 rfl)
  · intro path lines hmem
    rw [hbody] at hmem
    rcases List.mem_append.1 hmem with hmem | hmem
    · exact installOpsCore_writeFile env m _ path lines hmem
    · cases hp : m.postinstall with
      | none => rw [hp] at hmem; cases hmem
      | some p =>
        rw [hp] at hmem
        obtain heq := List.mem_singleton.1 hmem
        cases heq
  · rintro ⟨h1, h2⟩ hmem
    rcases List.mem_append.1 hmem with hmem | hmem
    · rcases List.mem_append.1 hmem with hmem | hmem
      · obtain ⟨pr, hpr, heq⟩ := List.mem_map.1 hmem
        have hrel : pr.2 = PPYM_INSTALLED_FILES := joinPath_right_inj heq
        exact h1 (List.mem_map.2 ⟨pr, hpr, hrel⟩)
      · exact h2 (List.mem_append_left _ hmem)
    · exact h2 (List.mem_append_right _ hmem)

/-- C10 witness: on a clean source directory the ledger write is in
the trace and the ledger path does not occur among its lines. -/
theorem C10_ledger_witness :
    (FsOp.writeFile
        (joinPath (joinPath demoDirs.packages cleanManifest.name)
          PPYM_INSTALLED_FILES)
        (copiedDests (joinPath demoDirs.packages cleanManifest.name)
            (walk_package_files cleanManifest
              (cleanEnv.dirFiles cleanManifest.directory))
          ++ scriptCreated cleanEnv cleanManifest
          ++ binCreated cleanEnv cleanManifest)
      ∈ (install_from_directory demoDirs false cleanEnv
          "/src/clean" none).2) ∧
    joinPath (joinPath demoDirs.packages cleanManifest.name)
        PPYM_INSTALLED_FILES ∉
      copiedDests (joinPath demoDirs.packages cleanManifest.name)
          (walk_package_files cleanManifest
            (cleanEnv.dirFiles cleanManifest.directory))
        ++ scriptCreated cleanEnv cleanManifest
        ++ binCreated cleanEnv cleanManifest := by
  have h := C10_ledger_lists_installed_files demoDirs false cleanEnv
    "/src/clean" cleanManifest rfl rfl rfl
  exact ⟨h.1, h.2.2 ⟨by decide, by decide⟩⟩
